import Mathlib

/-!
# travel-memory-app: the `/memories` handlers of `app.js`

`app.js` is an Express application whose six routes each make at most one call
on the Mongoose model `Memory` and map what the call settles to onto a status
and a body. The routes are embedded here one function per `app.<verb>` call.

The calls go into Mongoose, a dependency of the application. Its part is
embedded as far as the routes reach into it:

* a route parameter is cast to an `ObjectId` before a query runs, and the query
  is rejected with a `CastError` when the cast fails;
* the model is built from a plain schema of four `String` paths, so it is
  strict: members of a body that the schema does not declare are not stored,
  and the values of declared paths are cast to strings (a value that has no
  string form fails the cast);
* a collection keeps its documents in insertion order and holds at most one
  document per `_id`;
* a call made while the connection is not up is rejected once buffering times
  out.

A model has two paths besides those of its schema, `_id` (an `ObjectId`) and
the version key `__v` (a `Number`); a body may name them, and the body of an
update may hold the operators `$set` and `$unset`.

A handler that awaits a rejected call outside a `try` block sends nothing: its
own promise is rejected. That is recorded as `Outcome.rejected`; what the
framework or the runtime does with the rejection is not embedded.

Some bodies are not interpreted, and a route given one ends in
`Outcome.outside`: a created document whose `_id` would not be an `ObjectId`
(a body with `_id: null`, or with an array or an object for `_id`), a body
for `POST` with a member `id` (whether the `id` virtual has a setter depends on
the release of Mongoose), an update with an operator other than `$set` and
`$unset` or with an array for one of these two, and an update that sets `_id`
to an array or an object or `__v` to a numeric string that is not a plain
integer.
-/

namespace TravelMemory

/-! ## JSON bodies -/

/-- A JSON value as the body parser hands it over. A number is carried by the
text JavaScript prints for it (`String(5)` is `"5"`). -/
inductive JVal where
  | null
  | bool (b : Bool)
  | num (text : String)
  | str (s : String)
  | arr (items : List JVal)
  | obj (members : List (String × JVal))

/-- The parsed request body `req.body`: the members of a JSON object. A name
stands for its first entry. -/
abbrev Body := List (String × JVal)

/-! ## ObjectId -/

/-- A 12-byte `ObjectId`, kept as its 24 hexadecimal digits. -/
structure ObjectId where
  nibbles : List (Fin 16)
  size : nibbles.length = 24
deriving DecidableEq

/-- The sixteen lower-case hexadecimal digits. -/
def hexDigits : List Char :=
  ['0', '1', '2', '3', '4', '5', '6', '7', '8', '9', 'a', 'b', 'c', 'd', 'e', 'f']

/-- The lower-case hexadecimal digit of a nibble. -/
def hexChar (d : Fin 16) : Char :=
  hexDigits.getD d.val '0'

/-- The nibble a hexadecimal digit stands for, in either case. -/
def hexVal (c : Char) : Option (Fin 16) :=
  if '0' ≤ c ∧ c ≤ '9' then some (Fin.ofNat (c.toNat - 48))
  else if 'a' ≤ c ∧ c ≤ 'f' then some (Fin.ofNat (c.toNat - 87))
  else if 'A' ≤ c ∧ c ≤ 'F' then some (Fin.ofNat (c.toNat - 55))
  else none

/-- The nibbles of a string of hexadecimal digits, `none` when a character is
not one. -/
def parseHex : List Char → Option (List (Fin 16))
  | [] => some []
  | c :: cs =>
    match hexVal c, parseHex cs with
    | some d, some ds => some (d :: ds)
    | _, _ => none

/-- The text of an identifier in a response: `ObjectId.prototype.toHexString`,
which `JSON.stringify` applies to `_id`. -/
def toHexString (oid : ObjectId) : String :=
  String.mk (oid.nibbles.map hexChar)

/-- The cast of a route parameter to an `ObjectId`: a string of 24 hexadecimal
digits is one, `"abc"` is not. -/
def castObjectId (s : String) : Option ObjectId :=
  match parseHex s.data with
  | some ds => if h : ds.length = 24 then some ⟨ds, h⟩ else none
  | none => none

/-! ## The schema and its documents -/

/-- The paths of the schema given to `mongoose.model("Memory", ...)`; each is
declared `String`. -/
def schemaPaths : List String :=
  ["location", "date", "description", "imageUrl"]

/-- A stored value of a `String` path: a string, or `none` for `null`. The
version key is stored the same way, as the text of its number. -/
abbrev Stored := Option String

/-- A document of the `Memory` model. A path that was never set is `none`;
`__v` is the version key, written when the document is inserted. -/
structure Memory where
  _id : ObjectId
  location : Option Stored
  date : Option Stored
  description : Option Stored
  imageUrl : Option Stored
  __v : Option Stored
deriving DecidableEq

/-- The value of a document at a path by name, `none` where the document has
no such member. -/
def Memory.get (m : Memory) (path : String) : Option Stored :=
  if path = "location" then m.location
  else if path = "date" then m.date
  else if path = "description" then m.description
  else if path = "imageUrl" then m.imageUrl
  else none

/-- The JSON text form of a stored value. -/
def Stored.toJVal : Stored → JVal
  | none => .null
  | some s => .str s

/-- The JSON text form of a stored number. -/
def Stored.toJNum : Stored → JVal
  | none => .null
  | some text => .num text

/-- The member a path contributes to a serialised document. -/
def memberOf (name : String) : Option Stored → List (String × JVal)
  | none => []
  | some v => [(name, Stored.toJVal v)]

/-- The object `res.send(memory)` serialises a document to. -/
def Memory.toJSON (m : Memory) : List (String × JVal) :=
  [("_id", JVal.str (toHexString m._id))]
    ++ memberOf "location" m.location
    ++ memberOf "date" m.date
    ++ memberOf "description" m.description
    ++ memberOf "imageUrl" m.imageUrl
    ++ (match m.__v with
        | none => []
        | some n => [("__v", Stored.toJNum n)])

/-! ## Casts -/

/-- The cast of a value to a `String` path, `none` when the cast fails. A
string is kept; `null` stays `null`; a number or a boolean is replaced by its
`toString()`; an array has no string form, and an object has one only through
a non-empty string member `_id`. -/
def castString : JVal → Option Stored
  | .null => some none
  | .str s => some (some s)
  | .num text => some (some text)
  | .bool b => some (some (if b then "true" else "false"))
  | .arr _ => none
  | .obj members =>
    match members.lookup "_id" with
    | some (.str s) => if s = "" then none else some (some s)
    | _ => none

/-- What a body holds for a path of the schema. -/
inductive Cast where
  | absent
  | value (v : Stored)
  | failed
deriving DecidableEq

/-- The body's member of a given name, cast to `String`. -/
def castPath (body : Body) (path : String) : Cast :=
  match body.lookup path with
  | none => .absent
  | some v =>
    match castString v with
    | some c => .value c
    | none => .failed

/-- The value a path has after a body is applied over `old`: the body's cast
value when it has one, `old` otherwise. -/
def Cast.over (old : Option Stored) : Cast → Option Stored
  | .value v => some v
  | _ => old

/-- Whether a body holds, for one of the four `String` paths, a value that
cannot be cast. -/
def stringCastFails (body : Body) : Bool :=
  schemaPaths.any (fun path => castPath body path = Cast.failed)

/-- What the cast to `ObjectId` makes of a value given for `_id`. -/
inductive IdCast where
  | value (oid : ObjectId)
  | null
  | failed
  | outside
deriving DecidableEq

/-- The cast of an optional text to an `ObjectId`. -/
def IdCast.ofText (s : String) : IdCast :=
  match castObjectId s with
  | some oid => .value oid
  | none => .failed

/-- The cast of a value to the `ObjectId` path `_id`: `null` stays `null`, a
string, a number or a boolean goes through its `toString()`. An array or an
object is not interpreted. -/
def castId : JVal → IdCast
  | .null => .null
  | .str s => IdCast.ofText s
  | .num text => IdCast.ofText text
  | .bool b => IdCast.ofText (if b then "true" else "false")
  | .arr _ => .outside
  | .obj _ => .outside

/-- The white space `Number(...)` strips from both ends of a string. -/
def isJsSpace (c : Char) : Bool :=
  c.toNat ∈ [9, 10, 11, 12, 13, 32, 160, 5760, 8232, 8233, 8239, 8287, 12288, 65279]
    || (8192 ≤ c.toNat && c.toNat ≤ 8202)

/-- A string with the white space at both ends removed. -/
def jsTrim (cs : List Char) : List Char :=
  ((cs.dropWhile isJsSpace).reverse.dropWhile isJsSpace).reverse

/-- A string with a leading sign removed. -/
def dropSign : List Char → List Char
  | '+' :: cs => cs
  | '-' :: cs => cs
  | cs => cs

/-- Whether a string is empty or an exponent part: `e` or `E`, an optional
sign, digits. -/
def isExponent : List Char → Bool
  | [] => true
  | c :: cs => (c == 'e' || c == 'E') && !(dropSign cs).isEmpty && (dropSign cs).all Char.isDigit

/-- Whether a string is an unsigned decimal literal. -/
def isUnsignedDecimal (cs : List Char) : Bool :=
  cs == "Infinity".data
    || (match cs.dropWhile Char.isDigit with
        | '.' :: rest =>
          (!(cs.takeWhile Char.isDigit).isEmpty || !(rest.takeWhile Char.isDigit).isEmpty)
            && isExponent (rest.dropWhile Char.isDigit)
        | rest => !(cs.takeWhile Char.isDigit).isEmpty && isExponent rest)

/-- Whether a string is a binary, octal or hexadecimal integer literal. -/
def isRadixLiteral : List Char → Bool
  | '0' :: r :: ds =>
    !ds.isEmpty
      && ((r == 'x' || r == 'X') && ds.all (fun c => (hexVal c).isSome)
        || (r == 'o' || r == 'O') && ds.all (fun c => '0' ≤ c && c ≤ '7')
        || (r == 'b' || r == 'B') && ds.all (fun c => c == '0' || c == '1'))
  | _ => false

/-- Whether `Number(s)` is a number, that is, not `NaN`. -/
def jsNumeric (s : String) : Bool :=
  (jsTrim s.data).isEmpty || isRadixLiteral (jsTrim s.data)
    || isUnsignedDecimal (dropSign (jsTrim s.data))

/-- Whether a string is a plain integer, the text JavaScript prints for the
number it denotes: digits without a leading zero, at most fifteen. -/
def isPlainInteger (s : String) : Bool :=
  !s.data.isEmpty && s.data.all Char.isDigit && s.data.length ≤ 15
    && (s.data.head? != some '0' || s.data.length == 1)

/-- What the cast to `Number` makes of a value given for `__v`. -/
inductive NumCast where
  | value (n : Stored)
  | failed
  | outside
deriving DecidableEq

/-- The cast `castNumber`: `null` and the empty string give `null`, a boolean
gives 1 or 0, a string the number it denotes, and an array or an object fails.
The number a string denotes is given for a plain integer only. -/
def castNumber : JVal → NumCast
  | .null => .value none
  | .num text => .value (some text)
  | .bool b => .value (some (if b then "1" else "0"))
  | .str s =>
    if s = "" then .value none
    else if isPlainInteger s then .value (some s)
    else if jsNumeric s then .outside
    else .failed
  | .arr _ => .failed
  | .obj _ => .failed

/-- The cast of a value to the `Number` path `__v`: an object with a member
`_id` is cast through that member. -/
def castVersion : JVal → NumCast
  | .obj members =>
    match members.lookup "_id" with
    | some v => castNumber v
    | none => .failed
  | v => castNumber v

/-! ## The model's calls -/

/-- The state of the connection opened by `mongoose.connect(MONGO_URI)`. -/
inductive ConnState where
  | connecting
  | connected
  | failed
deriving DecidableEq

/-- The way a call on the model is rejected. -/
inductive DbError where
  | castError
  | validationError
  | duplicateKey
  | bufferTimeout
  | invalidUpdate
  | conflict
  | immutableField
deriving DecidableEq

/-- What a call on the model settles to: a value, a rejection, or `outside`
for a body that is not interpreted. -/
inductive Settled (α : Type) where
  | resolved (a : α)
  | rejected (err : DbError)
  | outside

/-- The next step of a call, taken when the step before resolved. -/
def Settled.andThen {α β : Type} (x : Settled α) (f : α → Settled β) : Settled β :=
  match x with
  | .resolved a => f a
  | .rejected err => .rejected err
  | .outside => .outside

/-- A document built by `new Memory(...)` and not yet saved, with the paths
whose value failed its cast. -/
structure Draft where
  doc : Memory
  invalid : List String

/-- The identifier of a new document, `none` when it would not be an
`ObjectId`: the cast of the body's `_id` when the body has one and the cast
succeeds, the generated `oid` otherwise. -/
def newId (oid : ObjectId) (body : Body) : Option ObjectId :=
  match body.lookup "_id" with
  | none => some oid
  | some v =>
    match castId v with
    | .value given => some given
    | .failed => some oid
    | .null => none
    | .outside => none

/-- The paths of a body for `new Memory(...)` whose value fails its cast: the
four `String` paths, `_id` and `__v`. -/
def invalidPaths (body : Body) : List String :=
  schemaPaths.filter (fun path => castPath body path = Cast.failed)
    ++ (match body.lookup "_id" with
        | some v => if castId v = IdCast.failed then ["_id"] else []
        | none => [])
    ++ (match body.lookup "__v" with
        | some v => if castVersion v = NumCast.failed then ["__v"] else []
        | none => [])

/-- The constructor call `new Memory(req.body)`: `oid` is the identifier the
driver generates for the new document. The paths of the model are read from
the body, other members are dropped; a failed cast leaves the path as it was
and marks it invalid. `none` for a body that is not interpreted. -/
def newMemory (oid : ObjectId) (body : Body) : Option Draft :=
  if (body.lookup "id").isSome then none
  else
    match newId oid body with
    | none => none
    | some id =>
      some
        { doc :=
            { _id := id
              location := (castPath body "location").over none
              date := (castPath body "date").over none
              description := (castPath body "description").over none
              imageUrl := (castPath body "imageUrl").over none
              __v := none }
          invalid := invalidPaths body }

/-- The call `memory.save()` on a new document: validation, then the insert,
which writes the version key 0. It resolves to the document as inserted and
the collection with the document appended. -/
def Draft.save (conn : ConnState) (docs : List Memory) (d : Draft) :
    Except DbError (Memory × List Memory) :=
  if d.invalid ≠ [] then .error .validationError
  else if conn ≠ .connected then .error .bufferTimeout
  else if docs.any (fun m => m._id = d.doc._id) then .error .duplicateKey
  else
    .ok ({ d.doc with __v := some (some "0") }, docs ++ [{ d.doc with __v := some (some "0") }])

/-- The call `Memory.find()`. -/
def Memory.find (conn : ConnState) (docs : List Memory) : Except DbError (List Memory) :=
  if conn ≠ .connected then .error .bufferTimeout else .ok docs

/-- The call `Memory.findById(id)`: `null` (here `none`) when no document has
the identifier. -/
def Memory.findById (conn : ConnState) (docs : List Memory) (id : String) :
    Except DbError (Option Memory) :=
  match castObjectId id with
  | none => .error .castError
  | some oid =>
    if conn ≠ .connected then .error .bufferTimeout
    else .ok (docs.find? (fun m => m._id = oid))

/-! ### Update documents -/

/-- Whether a member's name is that of an update operator: it begins with a
dollar sign. -/
def isOperator (name : String) : Bool :=
  name.data.head? == some '$'

/-- The members of a body that are not update operators. -/
def fieldsOf (body : Body) : Body :=
  body.filter (fun member => !isOperator member.1)

/-- Whether JavaScript takes a value for true. -/
def JVal.truthy : JVal → Bool
  | .null => false
  | .bool b => b
  | .num text => text != "0"
  | .str s => s != ""
  | .arr _ => true
  | .obj _ => true

/-- Whether a body holds an operator other than `$set` and `$unset`. -/
def hasOtherOperator (body : Body) : Bool :=
  body.any (fun member => isOperator member.1 && member.1 != "$set" && member.1 != "$unset")

/-- The members an update sets: the body's own fields, which stand for a
`$set`, before those of its `$set` member. -/
def setDoc (body : Body) : Settled Body :=
  match body.lookup "$set" with
  | none => .resolved (fieldsOf body)
  | some (.obj members) => .resolved (fieldsOf body ++ members)
  | some (.arr _) => .outside
  | some v =>
    if v.truthy then .rejected .invalidUpdate
    else if (fieldsOf body).isEmpty then .rejected .invalidUpdate
    else .resolved (fieldsOf body)

/-- The members an update unsets. -/
def unsetDoc (body : Body) : Settled Body :=
  match body.lookup "$unset" with
  | none => .resolved []
  | some (.obj members) => .resolved members
  | some (.arr _) => .outside
  | some _ => .rejected .invalidUpdate

/-- What an update does to a path. -/
inductive Change (α : Type) where
  | keep
  | set (v : α)
  | unset
deriving DecidableEq

/-- The value of a path after a change. -/
def Change.over {α : Type} (old : Option α) : Change α → Option α
  | .keep => old
  | .set v => some v
  | .unset => none

/-- An update document after casting, path by path. Members the model has no
path for are dropped. -/
structure Update where
  location : Change Stored
  date : Change Stored
  description : Change Stored
  imageUrl : Change Stored
  _id : Change (Option ObjectId)
  __v : Change Stored
deriving DecidableEq

/-- The change to a path that has no value to set. -/
def unsetOrKeep {α : Type} (unsets : Body) (path : String) : Change α :=
  if (unsets.lookup path).isSome then .unset else .keep

/-- The change to a `String` path. Setting and unsetting one path conflict. -/
def stringChange (sets unsets : Body) (path : String) : Settled (Change Stored) :=
  match castPath sets path with
  | .failed => .rejected .castError
  | .value c =>
    if (unsets.lookup path).isSome then .rejected .conflict else .resolved (.set c)
  | .absent => .resolved (unsetOrKeep unsets path)

/-- The change to `_id`. -/
def idChange (sets unsets : Body) : Settled (Change (Option ObjectId)) :=
  match sets.lookup "_id" with
  | none => .resolved (unsetOrKeep unsets "_id")
  | some v =>
    match castId v with
    | .outside => .outside
    | .failed => .rejected .castError
    | .null =>
      if (unsets.lookup "_id").isSome then .rejected .conflict else .resolved (.set none)
    | .value oid =>
      if (unsets.lookup "_id").isSome then .rejected .conflict else .resolved (.set (some oid))

/-- The change to `__v`. -/
def versionChange (sets unsets : Body) : Settled (Change Stored) :=
  match sets.lookup "__v" with
  | none => .resolved (unsetOrKeep unsets "__v")
  | some v =>
    match castVersion v with
    | .outside => .outside
    | .failed => .rejected .castError
    | .value n =>
      if (unsets.lookup "__v").isSome then .rejected .conflict else .resolved (.set n)

/-- The cast of `req.body` as an update document. -/
def castUpdate (body : Body) : Settled Update :=
  if hasOtherOperator body then .outside
  else
    (setDoc body).andThen fun sets =>
    (unsetDoc body).andThen fun unsets =>
    (idChange sets unsets).andThen fun id =>
    (versionChange sets unsets).andThen fun version =>
    (stringChange sets unsets "location").andThen fun location =>
    (stringChange sets unsets "date").andThen fun date =>
    (stringChange sets unsets "description").andThen fun description =>
    (stringChange sets unsets "imageUrl").andThen fun imageUrl =>
    .resolved
      { location := location, date := date, description := description,
        imageUrl := imageUrl, _id := id, __v := version }

/-- Whether an update leaves the identifier of a document as it is: `_id` is
immutable. -/
def keepsId (u : Update) (m : Memory) : Bool :=
  match u._id with
  | .keep => true
  | .set (some oid) => oid = m._id
  | .set none => false
  | .unset => false

/-- A document with an update applied. -/
def Memory.update (m : Memory) (u : Update) : Except DbError Memory :=
  if keepsId u m then
    .ok
      { m with
        location := u.location.over m.location
        date := u.date.over m.date
        description := u.description.over m.description
        imageUrl := u.imageUrl.over m.imageUrl
        __v := u.__v.over m.__v }
  else .error .immutableField

/-- The first document with identifier `oid` replaced by its update; the
replacement comes with the list, `none` when no document has the
identifier. -/
def updateFirst (oid : ObjectId) (u : Update) :
    List Memory → Except DbError (Option Memory × List Memory)
  | [] => .ok (none, [])
  | m :: ms =>
    if m._id = oid then
      match m.update u with
      | .ok updated => .ok (some updated, updated :: ms)
      | .error err => .error err
    else
      match updateFirst oid u ms with
      | .ok (found, rest) => .ok (found, m :: rest)
      | .error err => .error err

/-- The call `Memory.findByIdAndUpdate(id, body, { new: true })`: resolves to
the document after the update, or to `null` when no document has the
identifier. -/
def Memory.findByIdAndUpdate (conn : ConnState) (docs : List Memory) (id : String)
    (body : Body) : Settled (Option Memory × List Memory) :=
  match castObjectId id with
  | none => .rejected .castError
  | some oid =>
    (castUpdate body).andThen fun u =>
      if conn ≠ .connected then .rejected .bufferTimeout
      else
        match updateFirst oid u docs with
        | .ok result => .resolved result
        | .error err => .rejected err

/-- The call `Memory.findByIdAndDelete(id)`: resolves to the removed document,
or to `null` when no document has the identifier. -/
def Memory.findByIdAndDelete (conn : ConnState) (docs : List Memory) (id : String) :
    Except DbError (Option Memory × List Memory) :=
  match castObjectId id with
  | none => .error .castError
  | some oid =>
    if conn ≠ .connected then .error .bufferTimeout
    else .ok (docs.find? (fun m => m._id = oid), docs.eraseP (fun m => m._id = oid))

/-! ## The routes -/

/-- The payload of `res.send(...)`. -/
inductive ResBody where
  | doc (memory : Memory)
  | docs (memories : List Memory)
  | json (members : List (String × String))
  | text (s : String)
deriving DecidableEq

/-- A response: `res.send` alone answers with status 200. -/
structure Response where
  status : Nat
  body : ResBody
deriving DecidableEq

/-- What a handler leaves behind: a response, or a rejected promise and no
response when an awaited call is rejected outside a `try` block; `outside`
for a body that is not interpreted. -/
inductive Outcome where
  | sent (res : Response)
  | rejected (err : DbError)
  | outside
deriving DecidableEq

/-- The route `app.post("/memories", ...)`. -/
def postMemories (conn : ConnState) (docs : List Memory) (oid : ObjectId) (body : Body) :
    Outcome × List Memory :=
  match newMemory oid body with
  | none => (.outside, docs)
  | some memory =>
    match memory.save conn docs with
    | .ok (saved, docs') => (.sent ⟨201, .doc saved⟩, docs')
    | .error _ => (.sent ⟨400, .json [("error", "Error creating memory")]⟩, docs)

/-- The route `app.get("/memories", ...)`. -/
def getMemories (conn : ConnState) (docs : List Memory) : Outcome × List Memory :=
  match Memory.find conn docs with
  | .ok memories => (.sent ⟨200, .docs memories⟩, docs)
  | .error err => (.rejected err, docs)

/-- The route `app.get("/memories/:id", ...)`. -/
def getMemoriesId (conn : ConnState) (docs : List Memory) (id : String) :
    Outcome × List Memory :=
  match Memory.findById conn docs id with
  | .ok (some memory) => (.sent ⟨200, .doc memory⟩, docs)
  | .ok none => (.sent ⟨404, .json [("error", "Not found")]⟩, docs)
  | .error err => (.rejected err, docs)

/-- The route `app.put("/memories/:id", ...)`. -/
def putMemoriesId (conn : ConnState) (docs : List Memory) (id : String) (body : Body) :
    Outcome × List Memory :=
  match Memory.findByIdAndUpdate conn docs id body with
  | .resolved (some memory, docs') => (.sent ⟨200, .doc memory⟩, docs')
  | .resolved (none, docs') => (.sent ⟨404, .json [("error", "Not found")]⟩, docs')
  | .rejected err => (.rejected err, docs)
  | .outside => (.outside, docs)

/-- The route `app.delete("/memories/:id", ...)`. -/
def deleteMemoriesId (conn : ConnState) (docs : List Memory) (id : String) :
    Outcome × List Memory :=
  match Memory.findByIdAndDelete conn docs id with
  | .ok (_, docs') => (.sent ⟨200, .json [("message", "Deleted successfully")]⟩, docs')
  | .error err => (.rejected err, docs)

/-- The route `app.get("/health", ...)`: it makes no call on the model. -/
def health (_conn : ConnState) (docs : List Memory) : Outcome × List Memory :=
  (.sent ⟨200, .text "OK"⟩, docs)

/-- The collection's index on `_id`: no two documents share an identifier. -/
def UniqueIds (docs : List Memory) : Prop :=
  (docs.map Memory._id).Nodup

instance (docs : List Memory) : Decidable (UniqueIds docs) :=
  inferInstanceAs (Decidable (docs.map Memory._id).Nodup)

/-- Whether a body is made of fields alone: no update operator, no `_id`, no
`__v`. -/
def fieldsOnly (body : Body) : Bool :=
  body.all (fun member => !isOperator member.1 && member.1 != "_id" && member.1 != "__v")

/-- The change a body made of fields makes to one of the four paths: the path
is set when the body has a value for it. -/
def fieldChange (body : Body) (path : String) : Change Stored :=
  match castPath body path with
  | .value c => .set c
  | _ => .keep

/-- The update a body made of fields stands for. -/
def fieldUpdate (body : Body) : Update where
  location := fieldChange body "location"
  date := fieldChange body "date"
  description := fieldChange body "description"
  imageUrl := fieldChange body "imageUrl"
  _id := .keep
  __v := .keep

/-- A document with the cast values of a body made of fields set over it. -/
def Memory.withFields (m : Memory) (body : Body) : Memory :=
  { m with
    location := (castPath body "location").over m.location
    date := (castPath body "date").over m.date
    description := (castPath body "description").over m.description
    imageUrl := (castPath body "imageUrl").over m.imageUrl }

/-! ## Sample data -/

/-- The identifier whose 24 digits are all `d`. -/
def sampleId (d : Fin 16) : ObjectId :=
  ⟨List.replicate 24 d, List.length_replicate 24 d⟩

/-- The body of the first testable property. -/
def parisBody : Body :=
  [("location", .str "Paris"), ("date", .str "2024-01-01"),
   ("description", .str "Trip"), ("imageUrl", .str "http://x/y.jpg")]

/-- The document the Paris body is stored as under `sampleId 1`. -/
def parisDoc : Memory :=
  ⟨sampleId 1, some (some "Paris"), some (some "2024-01-01"), some (some "Trip"),
    some (some "http://x/y.jpg"), some (some "0")⟩

/-! ## Identifiers -/

theorem hexVal_hexChar (d : Fin 16) : hexVal (hexChar d) = some d := by
  revert d
  decide

theorem parseHex_map_hexChar (ds : List (Fin 16)) :
    parseHex (ds.map hexChar) = some ds := by
  induction ds with
  | nil => rfl
  | cons d ds ih => simp [parseHex, hexVal_hexChar, ih]

/-- The text of an identifier casts back to the identifier. -/
theorem castObjectId_toHexString (oid : ObjectId) :
    castObjectId (toHexString oid) = some oid := by
  obtain ⟨ds, h⟩ := oid
  simp [castObjectId, toHexString, parseHex_map_hexChar, h]

/-- The text of an identifier is not empty. -/
theorem toHexString_ne_empty (oid : ObjectId) : toHexString oid ≠ "" := by
  obtain ⟨ds, h⟩ := oid
  intro hs
  have hd := congrArg String.length hs
  simp [toHexString, String.length, h] at hd

/-! ## The model's calls -/

/-- What a resolved `save()` says about its arguments and its result. -/
theorem save_ok {conn : ConnState} {docs docs' : List Memory} {d : Draft} {memory : Memory}
    (h : d.save conn docs = .ok (memory, docs')) :
    d.invalid = [] ∧ conn = .connected ∧ (∀ m ∈ docs, m._id ≠ d.doc._id)
      ∧ memory = { d.doc with __v := some (some "0") } ∧ docs' = docs ++ [memory] := by
  unfold Draft.save at h
  split_ifs at h with h1 h2 h3
  · simp only [Except.ok.injEq, Prod.mk.injEq] at h
    obtain ⟨rfl, rfl⟩ := h
    refine ⟨by simpa using h1, by simpa using h2, ?_, rfl, rfl⟩
    intro m hm hid
    exact h3 (List.any_eq_true.mpr ⟨m, hm, by simpa using hid⟩)

/-- A `save()` that passes validation, with the connection up and no document
under its identifier, resolves. -/
theorem save_resolves (docs : List Memory) (d : Draft) (hv : d.invalid = [])
    (hf : ∀ m ∈ docs, m._id ≠ d.doc._id) :
    d.save .connected docs
      = .ok ({ d.doc with __v := some (some "0") },
          docs ++ [{ d.doc with __v := some (some "0") }]) := by
  have h3 : ¬ (docs.any (fun m => decide (m._id = d.doc._id)) = true) := by
    intro h
    obtain ⟨m, hm, hid⟩ := List.any_eq_true.mp h
    exact hf m hm (by simpa using hid)
  simp [Draft.save, hv, h3]

theorem find?_append_fresh (docs : List Memory) (memory : Memory)
    (hf : ∀ m ∈ docs, m._id ≠ memory._id) :
    (docs ++ [memory]).find? (fun m => m._id = memory._id) = some memory := by
  induction docs with
  | nil => simp
  | cons a as ih =>
    have ha : a._id ≠ memory._id := hf a (List.mem_cons_self a as)
    have ih' := ih (fun m hm => hf m (List.mem_cons_of_mem a hm))
    simpa [List.find?, ha] using ih'

theorem eraseP_append_fresh (docs : List Memory) (memory : Memory)
    (hf : ∀ m ∈ docs, m._id ≠ memory._id) :
    (docs ++ [memory]).eraseP (fun m => m._id = memory._id) = docs := by
  induction docs with
  | nil => simp
  | cons a as ih =>
    have ha : a._id ≠ memory._id := hf a (List.mem_cons_self a as)
    have ih' := ih (fun m hm => hf m (List.mem_cons_of_mem a hm))
    simpa [List.eraseP, ha] using ih'

theorem find?_fresh (docs : List Memory) (oid : ObjectId)
    (hf : ∀ m ∈ docs, m._id ≠ oid) :
    docs.find? (fun m => m._id = oid) = none := by
  simpa using hf

/-- What a created response says: the body was read and the write resolved. -/
theorem postMemories_created {conn : ConnState} {docs docs' : List Memory} {oid : ObjectId}
    {body : Body} {memory : Memory}
    (h : postMemories conn docs oid body = (.sent ⟨201, .doc memory⟩, docs')) :
    ∃ d, newMemory oid body = some d ∧ d.save conn docs = .ok (memory, docs') := by
  unfold postMemories at h
  cases hn : newMemory oid body with
  | none => simp [hn] at h
  | some d =>
    refine ⟨d, rfl, ?_⟩
    simp only [hn] at h
    cases hs : d.save conn docs with
    | error err => simp [hs] at h
    | ok p =>
      obtain ⟨saved, docs''⟩ := p
      simp only [hs, Prod.mk.injEq, Outcome.sent.injEq, Response.mk.injEq, ResBody.doc.injEq,
        true_and] at h
      obtain ⟨rfl, rfl⟩ := h
      rfl

/-- A created document is appended to a collection that held no document under
its identifier, over a connection that is up. -/
theorem postMemories_created_store {conn : ConnState} {docs docs' : List Memory}
    {oid : ObjectId} {body : Body} {memory : Memory}
    (h : postMemories conn docs oid body = (.sent ⟨201, .doc memory⟩, docs')) :
    conn = .connected ∧ (∀ m ∈ docs, m._id ≠ memory._id) ∧ docs' = docs ++ [memory] := by
  obtain ⟨d, -, hs⟩ := postMemories_created h
  obtain ⟨-, hc, hf, hm, hd⟩ := save_ok hs
  have hid : memory._id = d.doc._id := by rw [hm]
  refine ⟨hc, ?_, hd⟩
  intro m hmem
  rw [hid]
  exact hf m hmem

/-! ## Serialised documents -/

theorem toJSON_lookup (m : Memory) (name : String) :
    m.toJSON.lookup name
      = if name = "_id" then some (JVal.str (toHexString m._id))
        else if name ∈ schemaPaths then (m.get name).map Stored.toJVal
        else if name = "__v" then m.__v.map Stored.toJNum
        else none := by
  obtain ⟨id, l, d, de, i, v⟩ := m
  by_cases h0 : name = "_id"
  · subst h0; rfl
  by_cases h1 : name = "location"
  · subst h1; cases l <;> cases d <;> cases de <;> cases i <;> cases v <;> rfl
  by_cases h2 : name = "date"
  · subst h2; cases l <;> cases d <;> cases de <;> cases i <;> cases v <;> rfl
  by_cases h3 : name = "description"
  · subst h3; cases l <;> cases d <;> cases de <;> cases i <;> cases v <;> rfl
  by_cases h4 : name = "imageUrl"
  · subst h4; cases l <;> cases d <;> cases de <;> cases i <;> cases v <;> rfl
  by_cases h5 : name = "__v"
  · subst h5; cases l <;> cases d <;> cases de <;> cases i <;> cases v <;> rfl
  have b0 : (name == "_id") = false := beq_eq_false_iff_ne.mpr h0
  have b1 : (name == "location") = false := beq_eq_false_iff_ne.mpr h1
  have b2 : (name == "date") = false := beq_eq_false_iff_ne.mpr h2
  have b3 : (name == "description") = false := beq_eq_false_iff_ne.mpr h3
  have b4 : (name == "imageUrl") = false := beq_eq_false_iff_ne.mpr h4
  have b5 : (name == "__v") = false := beq_eq_false_iff_ne.mpr h5
  cases l <;> cases d <;> cases de <;> cases i <;> cases v <;>
    simp [Memory.toJSON, memberOf, schemaPaths, List.lookup, h0, h1, h2, h3, h4, h5,
      b0, b1, b2, b3, b4, b5]

theorem toJSON_lookup_schema (m : Memory) {path : String} (hp : path ∈ schemaPaths) :
    m.toJSON.lookup path = (m.get path).map Stored.toJVal := by
  have h0 : path ≠ "_id" := by
    rintro rfl
    revert hp
    decide
  rw [toJSON_lookup, if_neg h0, if_pos hp]

theorem toJSON_lookup_id (m : Memory) :
    m.toJSON.lookup "_id" = some (JVal.str (toHexString m._id)) := by
  rw [toJSON_lookup, if_pos rfl]

theorem toJSON_lookup_version (m : Memory) :
    m.toJSON.lookup "__v" = m.__v.map Stored.toJNum := by
  rw [toJSON_lookup, if_neg (by decide), if_neg (by decide), if_pos rfl]

theorem toJSON_lookup_foreign (m : Memory) {name : String} (hp : name ∉ schemaPaths)
    (h0 : name ≠ "_id") (hv : name ≠ "__v") : m.toJSON.lookup name = none := by
  rw [toJSON_lookup, if_neg h0, if_neg hp, if_neg hv]

/-! ## Casts -/

theorem castPath_ne_failed {body : Body} (hc : stringCastFails body = false) {path : String}
    (hp : path ∈ schemaPaths) : castPath body path ≠ Cast.failed := by
  intro hf
  have : stringCastFails body = true := by
    unfold stringCastFails
    exact List.any_eq_true.mpr ⟨path, hp, by simpa using hf⟩
  rw [hc] at this
  exact Bool.false_ne_true this

theorem castPath_lookup {body : Body} {path : String} {v : JVal}
    (hv : body.lookup path = some v) :
    castPath body path = match castString v with
      | some c => Cast.value c
      | none => Cast.failed := by
  simp [castPath, hv]

theorem castPath_absent {body : Body} {path : String} (hv : body.lookup path = none) :
    castPath body path = Cast.absent := by
  simp [castPath, hv]

/-- A value that can be cast, for a path whose cast does not fail. -/
theorem castString_of_ne_failed {body : Body} {path : String} {v : JVal}
    (hl : body.lookup path = some v) (hnf : castPath body path ≠ Cast.failed) :
    ∃ c, castString v = some c ∧ castPath body path = Cast.value c := by
  rw [castPath_lookup hl] at hnf ⊢
  cases hcs : castString v with
  | none =>
    rw [hcs] at hnf
    exact absurd rfl hnf
  | some c => exact ⟨c, rfl, rfl⟩

theorem over_none_toJVal (body : Body) (path : String) :
    ((castPath body path).over none).map Stored.toJVal
      = (body.lookup path).bind (fun v => (castString v).map Stored.toJVal) := by
  cases hb : body.lookup path with
  | none => simp [castPath, hb, Cast.over]
  | some v =>
    cases hv : castString v with
    | none => simp [castPath, hb, hv, Cast.over]
    | some c => simp [castPath, hb, hv, Cast.over]

/-! ## New documents -/

/-- A body is read by `new Memory(...)` when it has no member `id` and its
`_id`, if it has one, is neither `null` nor an array nor an object. -/
theorem newMemory_isSome (oid : ObjectId) (body : Body) :
    (newMemory oid body).isSome = true
      ↔ body.lookup "id" = none
        ∧ ∀ v, body.lookup "_id" = some v → castId v ≠ IdCast.null ∧ castId v ≠ IdCast.outside := by
  unfold newMemory newId
  cases hid : body.lookup "id" with
  | some w => simp
  | none =>
    cases h_id : body.lookup "_id" with
    | none => simp
    | some v => cases hc : castId v <;> simp [hc]

/-- The document `new Memory(...)` builds. -/
theorem newMemory_some {oid : ObjectId} {body : Body} {d : Draft}
    (hd : newMemory oid body = some d) :
    d.invalid = invalidPaths body
      ∧ (body.lookup "_id" = none → d.doc._id = oid)
      ∧ (∀ v, body.lookup "_id" = some v →
          castId v = IdCast.value d.doc._id ∨ (castId v = IdCast.failed ∧ d.doc._id = oid))
      ∧ ∀ path ∈ schemaPaths, d.doc.get path = (castPath body path).over none := by
  unfold newMemory newId at hd
  cases hid : body.lookup "id" with
  | some w => simp [hid] at hd
  | none =>
    simp only [hid, Option.isSome_none, Bool.false_eq_true, if_false] at hd
    have hget : ∀ (id : ObjectId), ∀ path ∈ schemaPaths,
        (Memory.mk id ((castPath body "location").over none) ((castPath body "date").over none)
          ((castPath body "description").over none) ((castPath body "imageUrl").over none)
          none).get path = (castPath body path).over none := by
      intro id path hp
      simp only [schemaPaths, List.mem_cons, List.mem_singleton, List.not_mem_nil,
        or_false] at hp
      rcases hp with rfl | rfl | rfl | rfl <;> rfl
    cases h_id : body.lookup "_id" with
    | none =>
      simp only [h_id, Option.some.injEq] at hd
      subst hd
      refine ⟨rfl, fun _ => rfl, ?_, hget oid⟩
      intro v hv
      cases hv
    | some v =>
      simp only [h_id] at hd
      cases hc : castId v with
      | value given =>
        simp only [hc, Option.some.injEq] at hd
        subst hd
        refine ⟨rfl, (fun h => by cases h), ?_, hget given⟩
        intro w hw
        cases hw
        exact Or.inl hc
      | failed =>
        simp only [hc, Option.some.injEq] at hd
        subst hd
        refine ⟨rfl, (fun h => by cases h), ?_, hget oid⟩
        intro w hw
        cases hw
        exact Or.inr ⟨hc, rfl⟩
      | null => simp [hc] at hd
      | outside => simp [hc] at hd

/-- A body that passes validation: no cast fails, on the four `String` paths,
on `_id` or on `__v`. -/
theorem invalidPaths_nil {body : Body} (hv : invalidPaths body = []) :
    stringCastFails body = false
      ∧ (∀ v, body.lookup "_id" = some v → castId v ≠ IdCast.failed)
      ∧ (∀ v, body.lookup "__v" = some v → castVersion v ≠ NumCast.failed) := by
  unfold invalidPaths at hv
  simp only [List.append_eq_nil, List.filter_eq_nil_iff] at hv
  obtain ⟨⟨h1, h2⟩, h3⟩ := hv
  refine ⟨?_, ?_, ?_⟩
  · unfold stringCastFails
    rw [Bool.eq_false_iff]
    intro h
    obtain ⟨p, hp, hpf⟩ := List.any_eq_true.mp h
    exact h1 p hp hpf
  · intro v hl
    rw [hl] at h2
    intro hf
    simp [hf] at h2
  · intro v hl
    rw [hl] at h3
    intro hf
    simp [hf] at h3

/-- The members of a created document: for a path of the schema the body's
value cast to a string, the text of the identifier, the version key 0, and
nothing else. -/
theorem created_members {oid : ObjectId} {body : Body} {d : Draft}
    (hd : newMemory oid body = some d) (name : String) :
    (name ∈ schemaPaths →
      ({ d.doc with __v := some (some "0") } : Memory).toJSON.lookup name
        = (body.lookup name).bind (fun v => (castString v).map Stored.toJVal))
    ∧ (name ∉ schemaPaths → name ≠ "_id" → name ≠ "__v" →
      ({ d.doc with __v := some (some "0") } : Memory).toJSON.lookup name = none) := by
  obtain ⟨-, -, -, hget⟩ := newMemory_some hd
  constructor
  · intro hp
    rw [toJSON_lookup_schema _ hp, ← over_none_toJVal, ← hget name hp]
    rfl
  · intro hp h0 hv
    exact toJSON_lookup_foreign _ hp h0 hv

/-! ## Creating -/

/-- The members `_id` and `__v` of a body for `POST /memories`: an `_id` that
is an `ObjectId` becomes the identifier of the record, so that a second record
under it is refused; an `_id` that is not an `ObjectId` fails validation, as
does a `__v` that is not a number. -/
theorem postMemories_model_paths :
    postMemories .connected [] (sampleId 1)
        (("_id", JVal.str "222222222222222222222222") :: parisBody)
      = (.sent ⟨201, .doc { parisDoc with _id := sampleId 2 }⟩,
          [{ parisDoc with _id := sampleId 2 }])
    ∧ postMemories .connected [] (sampleId 1) (("_id", JVal.str "abc") :: parisBody)
      = (.sent ⟨400, .json [("error", "Error creating memory")]⟩, [])
    ∧ postMemories .connected [] (sampleId 1) (("__v", JVal.str "abc") :: parisBody)
      = (.sent ⟨400, .json [("error", "Error creating memory")]⟩, [])
    ∧ postMemories .connected [parisDoc] (sampleId 2)
        (("_id", JVal.str "111111111111111111111111") :: parisBody)
      = (.sent ⟨400, .json [("error", "Error creating memory")]⟩, [parisDoc]) := by
  decide

/-- C1, as the handler and the schema have it: for every request body that
`new Memory(...)` reads (no member `id`; an `_id`, if any, that is a string, a
number or a boolean), `POST /memories` either answers 201 with the stored
record, when `save()` resolves, or answers 400 with
`error: "Error creating memory"`, when `save()` is rejected for any reason, and
then leaves the collection as it is. The identifier of the stored record has a
text that is not empty; it is the generated one when the body has no `_id`, and
the body's `_id` cast to an `ObjectId` when it has one. For each of
`location`, `date`, `description` and `imageUrl` that the body supplies the
record has the supplied value cast to a string: a supplied string is stored as
it is. -/
theorem postMemories_created_or_refused (conn : ConnState) (docs : List Memory)
    (oid : ObjectId) (body : Body) (d : Draft) (hd : newMemory oid body = some d) :
    (∃ memory,
        d.save conn docs = .ok (memory, docs ++ [memory])
        ∧ postMemories conn docs oid body = (.sent ⟨201, .doc memory⟩, docs ++ [memory])
        ∧ toHexString memory._id ≠ ""
        ∧ (body.lookup "_id" = none → memory._id = oid)
        ∧ (∀ v, body.lookup "_id" = some v → castId v = IdCast.value memory._id)
        ∧ (∀ path ∈ schemaPaths, ∀ v, body.lookup path = some v →
            ∃ c, castString v = some c
              ∧ memory.toJSON.lookup path = some (Stored.toJVal c))
        ∧ (∀ path ∈ schemaPaths, ∀ s, body.lookup path = some (JVal.str s) →
            memory.toJSON.lookup path = some (JVal.str s)))
    ∨ (∃ err,
        d.save conn docs = .error err
        ∧ postMemories conn docs oid body
          = (.sent ⟨400, .json [("error", "Error creating memory")]⟩, docs)) := by
  cases hs : d.save conn docs with
  | error err =>
    right
    exact ⟨err, rfl, by simp [postMemories, hd, hs]⟩
  | ok p =>
    left
    obtain ⟨memory, docs'⟩ := p
    obtain ⟨hv, -, -, hm, hdocs⟩ := save_ok hs
    subst hdocs
    obtain ⟨hinv, hnone, hsome, -⟩ := newMemory_some hd
    rw [hinv] at hv
    obtain ⟨hc, hidok, -⟩ := invalidPaths_nil hv
    have hid : memory._id = d.doc._id := by rw [hm]
    have hmem : ∀ path ∈ schemaPaths, ∀ v, body.lookup path = some v →
        ∃ c, castString v = some c ∧ memory.toJSON.lookup path = some (Stored.toJVal c) := by
      intro path hp v hl
      obtain ⟨c, hcs, -⟩ := castString_of_ne_failed hl (castPath_ne_failed hc hp)
      refine ⟨c, hcs, ?_⟩
      have hlk := (created_members hd path).1 hp
      rw [← hm, hl] at hlk
      rw [hlk]
      simp [hcs]
    refine ⟨memory, rfl, by simp [postMemories, hd, hs], toHexString_ne_empty _, ?_, ?_, hmem,
      ?_⟩
    · intro hn
      rw [hid]
      exact hnone hn
    · intro v hl
      rcases hsome v hl with h | ⟨h, -⟩
      · rw [hid]
        exact h
      · exact absurd h (hidok v hl)
    · intro path hp s hl
      obtain ⟨c, hc1, hc2⟩ := hmem path hp (JVal.str s) hl
      simp only [castString, Option.some.injEq] at hc1
      subst hc1
      exact hc2

/-- C1 at the Paris body over a live connection: the body is read and the
write resolves, so the answer is 201 with the stored record. -/
theorem postMemories_created_or_refused_witness :
    newMemory (sampleId 1) parisBody
        = some ⟨⟨sampleId 1, some (some "Paris"), some (some "2024-01-01"),
            some (some "Trip"), some (some "http://x/y.jpg"), none⟩, []⟩
      ∧ postMemories .connected [] (sampleId 1) parisBody
        = (.sent ⟨201, .doc parisDoc⟩, [parisDoc])
      ∧ ∃ memory,
        (Draft.mk ⟨sampleId 1, some (some "Paris"), some (some "2024-01-01"),
            some (some "Trip"), some (some "http://x/y.jpg"), none⟩ []).save .connected []
          = .ok (memory, [] ++ [memory])
        ∧ postMemories .connected [] (sampleId 1) parisBody
          = (.sent ⟨201, .doc memory⟩, [] ++ [memory])
        ∧ toHexString memory._id ≠ ""
        ∧ (parisBody.lookup "_id" = none → memory._id = sampleId 1)
        ∧ (∀ v, parisBody.lookup "_id" = some v → castId v = IdCast.value memory._id)
        ∧ (∀ path ∈ schemaPaths, ∀ v, parisBody.lookup path = some v →
            ∃ c, castString v = some c
              ∧ memory.toJSON.lookup path = some (Stored.toJVal c))
        ∧ (∀ path ∈ schemaPaths, ∀ s, parisBody.lookup path = some (JVal.str s) →
            memory.toJSON.lookup path = some (JVal.str s)) :=
  ⟨rfl, by decide,
    (postMemories_created_or_refused .connected [] (sampleId 1) parisBody
      ⟨⟨sampleId 1, some (some "Paris"), some (some "2024-01-01"), some (some "Trip"),
        some (some "http://x/y.jpg"), none⟩, []⟩ rfl).resolve_right
      (by
        rintro ⟨err, h, -⟩
        have hok : (Draft.mk ⟨sampleId 1, some (some "Paris"), some (some "2024-01-01"),
            some (some "Trip"), some (some "http://x/y.jpg"), none⟩ []).save .connected []
            = .ok (parisDoc, [parisDoc]) := rfl
        rw [hok] at h
        cases h)⟩

/-- C1 as stated fails on a number: `POST /memories` with `location: 5` answers
201 with a record whose `location` is the string `"5"`, which is not the
supplied value. -/
theorem postMemories_number_counterexample :
    postMemories .connected [] (sampleId 1) [("location", .num "5")]
        = (.sent ⟨201, .doc ⟨sampleId 1, some (some "5"), none, none, none, some (some "0")⟩⟩,
            [⟨sampleId 1, some (some "5"), none, none, none, some (some "0")⟩])
      ∧ (⟨sampleId 1, some (some "5"), none, none, none, some (some "0")⟩ : Memory).toJSON.lookup
          "location" = some (JVal.str "5")
      ∧ JVal.str "5" ≠ JVal.num "5" := by
  refine ⟨by decide, by rfl, ?_⟩
  intro h
  cases h

/-- C10, as the schema has it: for every body that `new Memory(...)` reads and
that passes validation, whichever of `location`, `date`, `description` and
`imageUrl` it supplies, `POST /memories` over a live connection creates a
record (no record being stored under its identifier yet). The record has, for
each of the four paths, the body's value cast to a string when the body
supplies one (a supplied string as it is) and no member otherwise; it has its
identifier under `_id`, and besides these and the version key `__v` it has no
member: further members of the body are not stored. -/
theorem postMemories_stores_schema_paths (docs : List Memory) (oid : ObjectId) (body : Body)
    (d : Draft) (hd : newMemory oid body = some d) (hv : d.invalid = [])
    (hf : ∀ m ∈ docs, m._id ≠ d.doc._id) :
    ∃ memory,
      postMemories .connected docs oid body = (.sent ⟨201, .doc memory⟩, docs ++ [memory])
      ∧ (∀ path ∈ schemaPaths,
          memory.toJSON.lookup path
            = (body.lookup path).bind (fun v => (castString v).map Stored.toJVal))
      ∧ (∀ path ∈ schemaPaths, ∀ s, body.lookup path = some (JVal.str s) →
          memory.toJSON.lookup path = some (JVal.str s))
      ∧ memory.toJSON.lookup "_id" = some (JVal.str (toHexString d.doc._id))
      ∧ (∀ name, name ∉ schemaPaths → name ≠ "_id" → name ≠ "__v" →
          memory.toJSON.lookup name = none) := by
  have hs := save_resolves docs d hv hf
  have hpaths : ∀ path ∈ schemaPaths,
      ({ d.doc with __v := some (some "0") } : Memory).toJSON.lookup path
        = (body.lookup path).bind (fun v => (castString v).map Stored.toJVal) :=
    fun path hp => (created_members hd path).1 hp
  refine ⟨{ d.doc with __v := some (some "0") }, by simp [postMemories, hd, hs], hpaths, ?_,
    toJSON_lookup_id _, ?_⟩
  · intro path hp s hl
    rw [hpaths path hp, hl]
    rfl
  · intro name hp h0 hv'
    exact (created_members hd name).2 hp h0 hv'

/-- C10 at a body with two of the four fields and a member the schema does not
declare: the record has the two fields and its identifier, and neither
`imageUrl` nor `note`. -/
theorem postMemories_stores_schema_paths_witness :
    newMemory (sampleId 1)
        [("location", JVal.str "Paris"), ("note", JVal.str "x"), ("date", JVal.num "2024")]
      = some ⟨⟨sampleId 1, some (some "Paris"), some (some "2024"), none, none, none⟩, []⟩
    ∧ ∃ memory,
      postMemories .connected [] (sampleId 1)
          [("location", JVal.str "Paris"), ("note", JVal.str "x"), ("date", JVal.num "2024")]
        = (.sent ⟨201, .doc memory⟩, [] ++ [memory])
      ∧ (∀ path ∈ schemaPaths,
          memory.toJSON.lookup path
            = (List.lookup path
                [("location", JVal.str "Paris"), ("note", JVal.str "x"),
                  ("date", JVal.num "2024")]).bind
              (fun v => (castString v).map Stored.toJVal))
      ∧ (∀ path ∈ schemaPaths, ∀ s,
          List.lookup path
              [("location", JVal.str "Paris"), ("note", JVal.str "x"),
                ("date", JVal.num "2024")] = some (JVal.str s) →
          memory.toJSON.lookup path = some (JVal.str s))
      ∧ memory.toJSON.lookup "_id" = some (JVal.str (toHexString (sampleId 1)))
      ∧ (∀ name, name ∉ schemaPaths → name ≠ "_id" → name ≠ "__v" →
          memory.toJSON.lookup name = none) :=
  ⟨rfl,
    postMemories_stores_schema_paths [] (sampleId 1)
      [("location", JVal.str "Paris"), ("note", JVal.str "x"), ("date", JVal.num "2024")]
      ⟨⟨sampleId 1, some (some "Paris"), some (some "2024"), none, none, none⟩, []⟩ rfl rfl
      (fun _ hm => absurd hm (List.not_mem_nil _))⟩

/-- C10 as stated fails on a member the schema does not declare:
`POST /memories` with the Paris fields and `note: "x"` answers 201 with the
Paris record, which has no member `note`. -/
theorem postMemories_extra_member_counterexample :
    (("note", JVal.str "x") :: parisBody).lookup "note" = some (JVal.str "x")
      ∧ postMemories .connected [] (sampleId 1) (("note", JVal.str "x") :: parisBody)
        = (.sent ⟨201, .doc parisDoc⟩, [parisDoc])
      ∧ parisDoc.toJSON.lookup "note" = none :=
  ⟨by rfl, by decide, by rfl⟩

/-! ## Updating -/

theorem lookup_eq_none {body : Body} {name : String}
    (h : ∀ member ∈ body, member.1 ≠ name) : body.lookup name = none := by
  induction body with
  | nil => rfl
  | cons a as ih =>
    obtain ⟨k, v⟩ := a
    have hk : k ≠ name := h (k, v) (List.mem_cons_self _ _)
    have hb : (name == k) = false := beq_eq_false_iff_ne.mpr (Ne.symm hk)
    simp only [List.lookup, hb]
    exact ih (fun member hm => h member (List.mem_cons_of_mem _ hm))

/-- What a body made of fields is free of. -/
theorem fieldsOnly_members {body : Body} (hp : fieldsOnly body = true) :
    ∀ member ∈ body, isOperator member.1 = false ∧ member.1 ≠ "_id" ∧ member.1 ≠ "__v" := by
  intro member hm
  have h := List.all_eq_true.mp hp member hm
  simp only [Bool.and_eq_true, Bool.not_eq_true', bne_iff_ne, ne_eq] at h
  exact ⟨h.1.1, h.1.2, h.2⟩

/-- The update document of a body made of fields whose values can be cast. -/
theorem castUpdate_fieldsOnly {body : Body} (hp : fieldsOnly body = true)
    (hc : stringCastFails body = false) : castUpdate body = .resolved (fieldUpdate body) := by
  have hmem := fieldsOnly_members hp
  have hset : body.lookup "$set" = none :=
    lookup_eq_none (fun member hm h => by
      have := (hmem member hm).1
      rw [h] at this
      exact absurd this (by decide))
  have hunset : body.lookup "$unset" = none :=
    lookup_eq_none (fun member hm h => by
      have := (hmem member hm).1
      rw [h] at this
      exact absurd this (by decide))
  have hid : body.lookup "_id" = none :=
    lookup_eq_none (fun member hm => (hmem member hm).2.1)
  have hver : body.lookup "__v" = none :=
    lookup_eq_none (fun member hm => (hmem member hm).2.2)
  have hother : hasOtherOperator body = false := by
    unfold hasOtherOperator
    rw [Bool.eq_false_iff]
    intro h
    obtain ⟨member, hm, hop⟩ := List.any_eq_true.mp h
    simp only [Bool.and_eq_true] at hop
    rw [(hmem member hm).1] at hop
    exact absurd hop.1.1 (by decide)
  have hfields : fieldsOf body = body := by
    unfold fieldsOf
    rw [List.filter_eq_self]
    intro member hm
    simp [(hmem member hm).1]
  have hchange : ∀ path ∈ schemaPaths,
      stringChange body [] path = .resolved (fieldChange body path) := by
    intro path hpath
    have hnf := castPath_ne_failed hc hpath
    unfold stringChange fieldChange unsetOrKeep
    cases hcp : castPath body path with
    | failed => exact absurd hcp hnf
    | value c => simp
    | absent => simp
  unfold castUpdate
  simp only [hother, Bool.false_eq_true, if_false, setDoc, hset, hfields, unsetDoc, hunset,
    Settled.andThen, idChange, hid, versionChange, hver, unsetOrKeep, List.lookup,
    Option.isSome_none,
    hchange "location" (by decide), hchange "date" (by decide),
    hchange "description" (by decide), hchange "imageUrl" (by decide)]
  rfl

theorem fieldChange_over (body : Body) (path : String) (old : Option Stored) :
    (fieldChange body path).over old = (castPath body path).over old := by
  unfold fieldChange
  cases castPath body path <;> rfl

/-- The update of a body made of fields applies to every document. -/
theorem update_fieldUpdate (m : Memory) (body : Body) :
    m.update (fieldUpdate body) = .ok (m.withFields body) := by
  simp only [Memory.update, keepsId, fieldUpdate, Memory.withFields, fieldChange_over, if_true]
  rfl

theorem withFields_get (m : Memory) (body : Body) {path : String} (hp : path ∈ schemaPaths) :
    (m.withFields body).get path = (castPath body path).over (m.get path) := by
  simp only [schemaPaths, List.mem_cons, List.mem_singleton, List.not_mem_nil, or_false] at hp
  rcases hp with rfl | rfl | rfl | rfl <;> rfl

theorem withFields_get_other (m : Memory) (body : Body) {name : String}
    (hp : name ∉ schemaPaths) : (m.withFields body).get name = m.get name := by
  simp only [schemaPaths, List.mem_cons, List.mem_singleton, List.not_mem_nil, or_false,
    not_or] at hp
  obtain ⟨h1, h2, h3, h4⟩ := hp
  simp [Memory.get, h1, h2, h3, h4]

/-- An update leaves the identifier of the document it applies to. -/
theorem update_id {m updated : Memory} {u : Update} (h : m.update u = .ok updated) :
    updated._id = m._id := by
  unfold Memory.update at h
  split_ifs at h
  cases h
  rfl

theorem updateFirst_mem (u : Update) (m updated : Memory) (docs : List Memory)
    (hu : UniqueIds docs) (hm : m ∈ docs) (hup : m.update u = .ok updated) :
    ∃ pre post, docs = pre ++ m :: post
      ∧ updateFirst m._id u docs = .ok (some updated, pre ++ updated :: post) := by
  induction docs with
  | nil => cases hm
  | cons a as ih =>
    have hu' : a._id ∉ as.map Memory._id ∧ UniqueIds as := by
      simpa [UniqueIds] using hu
    by_cases ha : a._id = m._id
    · have hma : m = a := by
        rcases List.mem_cons.mp hm with h | h
        · exact h
        · exact absurd (ha ▸ List.mem_map_of_mem Memory._id h) hu'.1
      subst hma
      exact ⟨[], as, rfl, by simp [updateFirst, hup]⟩
    · have hmas : m ∈ as := by
        rcases List.mem_cons.mp hm with h | h
        · exact absurd (congrArg Memory._id h.symm) ha
        · exact h
      obtain ⟨pre, post, hd, hfirst⟩ := ih hu'.2 hmas
      refine ⟨a :: pre, post, by simp [hd], ?_⟩
      simp [updateFirst, ha, hfirst]

theorem updateFirst_fresh (u : Update) (oid : ObjectId) (docs : List Memory)
    (hf : ∀ m ∈ docs, m._id ≠ oid) : updateFirst oid u docs = .ok (none, docs) := by
  induction docs with
  | nil => rfl
  | cons a as ih =>
    have ha : a._id ≠ oid := hf a (List.mem_cons_self a as)
    simp [updateFirst, ha, ih (fun m hm => hf m (List.mem_cons_of_mem a hm))]

/-- The members `$set`, `$unset`, `__v` and `_id` of a body for
`PUT /memories/:id`: `$set` sets a path like a field of the body does, `$unset`
removes it, `__v` sets the version key, and an `_id` other than the record's
own is refused by the database, which the handler does not catch. -/
theorem putMemoriesId_model_paths :
    putMemoriesId .connected [parisDoc] (toHexString parisDoc._id)
        [("$set", JVal.obj [("description", JVal.str "X")])]
      = (.sent ⟨200, .doc { parisDoc with description := some (some "X") }⟩,
          [{ parisDoc with description := some (some "X") }])
    ∧ putMemoriesId .connected [parisDoc] (toHexString parisDoc._id)
        [("$unset", JVal.obj [("description", JVal.str "")])]
      = (.sent ⟨200, .doc { parisDoc with description := none }⟩,
          [{ parisDoc with description := none }])
    ∧ putMemoriesId .connected [parisDoc] (toHexString parisDoc._id) [("__v", JVal.num "7")]
      = (.sent ⟨200, .doc { parisDoc with __v := some (some "7") }⟩,
          [{ parisDoc with __v := some (some "7") }])
    ∧ putMemoriesId .connected [parisDoc] (toHexString parisDoc._id)
        [("_id", JVal.str "222222222222222222222222")]
      = (.rejected .immutableField, [parisDoc]) := by
  decide

/-- C4, as the schema has it: for every record of a collection and every body
made of fields (no update operator, no `_id`, no `__v`) whose values for
`location`, `date`, `description` and `imageUrl` can be cast to strings,
`PUT /memories/:id` with the record's identifier answers 200 with the updated
record and puts it in the record's place, every other record staying where
and as it was. In the updated record each of the four paths that the body
supplies has the body's value cast to a string, a supplied string as it is;
every other member, `_id` and `__v` among them, is as before the update, and
members of the body that the schema does not declare are not stored. -/
theorem putMemoriesId_stored (docs : List Memory) (m : Memory) (body : Body)
    (hu : UniqueIds docs) (hm : m ∈ docs) (hp : fieldsOnly body = true)
    (hc : stringCastFails body = false) :
    ∃ pre post updated, docs = pre ++ m :: post
      ∧ putMemoriesId .connected docs (toHexString m._id) body
        = (.sent ⟨200, .doc updated⟩, pre ++ updated :: post)
      ∧ (∀ path ∈ schemaPaths, ∀ v, body.lookup path = some v →
          ∃ c, castString v = some c
            ∧ updated.toJSON.lookup path = some (Stored.toJVal c))
      ∧ (∀ path ∈ schemaPaths, ∀ s, body.lookup path = some (JVal.str s) →
          updated.toJSON.lookup path = some (JVal.str s))
      ∧ (∀ name, name ∉ schemaPaths ∨ body.lookup name = none →
          updated.toJSON.lookup name = m.toJSON.lookup name) := by
  obtain ⟨pre, post, hd, hfirst⟩ :=
    updateFirst_mem (fieldUpdate body) m (m.withFields body) docs hu hm
      (update_fieldUpdate m body)
  have hset : ∀ path ∈ schemaPaths, ∀ v, body.lookup path = some v →
      ∃ c, castString v = some c
        ∧ (m.withFields body).toJSON.lookup path = some (Stored.toJVal c) := by
    intro path hpath v hl
    obtain ⟨c, hcs, hcp⟩ := castString_of_ne_failed hl (castPath_ne_failed hc hpath)
    refine ⟨c, hcs, ?_⟩
    rw [toJSON_lookup_schema _ hpath, withFields_get m body hpath, hcp]
    rfl
  refine ⟨pre, post, m.withFields body, hd, ?_, hset, ?_, ?_⟩
  · simp [putMemoriesId, Memory.findByIdAndUpdate, castObjectId_toHexString,
      castUpdate_fieldsOnly hp hc, Settled.andThen, hfirst]
  · intro path hpath s hl
    obtain ⟨c, hc1, hc2⟩ := hset path hpath (JVal.str s) hl
    simp only [castString, Option.some.injEq] at hc1
    subst hc1
    exact hc2
  · intro name hn
    by_cases hpath : name ∈ schemaPaths
    · have hl : body.lookup name = none := hn.resolve_left (fun h => h hpath)
      rw [toJSON_lookup_schema _ hpath, toJSON_lookup_schema _ hpath,
        withFields_get m body hpath, castPath_absent hl]
      rfl
    · rw [toJSON_lookup, toJSON_lookup, withFields_get_other m body hpath]
      rfl

/-- C4 at the update of the testable property, with a member the schema does
not declare next to it: `description: "Updated"` and `note: "x"` on the Paris
record, which stands after another record. Only `description` changes. -/
theorem putMemoriesId_stored_witness :
    UniqueIds [{ parisDoc with _id := sampleId 2 }, parisDoc]
      ∧ parisDoc ∈ [{ parisDoc with _id := sampleId 2 }, parisDoc]
      ∧ fieldsOnly [("description", JVal.str "Updated"), ("note", JVal.str "x")] = true
      ∧ stringCastFails [("description", JVal.str "Updated"), ("note", JVal.str "x")] = false
      ∧ putMemoriesId .connected [{ parisDoc with _id := sampleId 2 }, parisDoc]
          (toHexString parisDoc._id) [("description", JVal.str "Updated"), ("note", JVal.str "x")]
        = (.sent ⟨200, .doc { parisDoc with description := some (some "Updated") }⟩,
            [{ parisDoc with _id := sampleId 2 },
              { parisDoc with description := some (some "Updated") }])
      ∧ ∃ pre post updated,
        [{ parisDoc with _id := sampleId 2 }, parisDoc] = pre ++ parisDoc :: post
        ∧ putMemoriesId .connected [{ parisDoc with _id := sampleId 2 }, parisDoc]
            (toHexString parisDoc._id)
            [("description", JVal.str "Updated"), ("note", JVal.str "x")]
          = (.sent ⟨200, .doc updated⟩, pre ++ updated :: post)
        ∧ (∀ path ∈ schemaPaths, ∀ v,
            List.lookup path [("description", JVal.str "Updated"), ("note", JVal.str "x")]
              = some v →
            ∃ c, castString v = some c
              ∧ updated.toJSON.lookup path = some (Stored.toJVal c))
        ∧ (∀ path ∈ schemaPaths, ∀ s,
            List.lookup path [("description", JVal.str "Updated"), ("note", JVal.str "x")]
              = some (JVal.str s) →
            updated.toJSON.lookup path = some (JVal.str s))
        ∧ (∀ name,
            name ∉ schemaPaths
              ∨ List.lookup name [("description", JVal.str "Updated"), ("note", JVal.str "x")]
                = none →
            updated.toJSON.lookup name = parisDoc.toJSON.lookup name) :=
  ⟨by decide, by decide, by decide, by decide, by decide,
    putMemoriesId_stored [{ parisDoc with _id := sampleId 2 }, parisDoc] parisDoc
      [("description", JVal.str "Updated"), ("note", JVal.str "x")]
      (by decide) (by decide) (by decide) (by decide)⟩

/-- C4 as stated fails on a member the schema does not declare:
`PUT /memories/:id` with `note: "x"` on the Paris record answers 200 with the
Paris record as it was, which has no member `note`. -/
theorem putMemoriesId_extra_member_counterexample :
    List.lookup "note" [("note", JVal.str "x")] = some (JVal.str "x")
      ∧ putMemoriesId .connected [parisDoc] (toHexString parisDoc._id) [("note", JVal.str "x")]
        = (.sent ⟨200, .doc parisDoc⟩, [parisDoc])
      ∧ parisDoc.toJSON.lookup "note" = none :=
  ⟨by rfl, by decide, by rfl⟩

/-! ## Reading back, deleting, listing, health -/

/-- C2: for every collection and every record that `POST /memories` created in
it, `GET /memories/:id` with the identifier of the returned record answers 200
with that very record, and leaves the collection as it is. -/
theorem getMemoriesId_after_postMemories (conn : ConnState) (docs docs' : List Memory)
    (oid : ObjectId) (body : Body) (memory : Memory)
    (h : postMemories conn docs oid body = (.sent ⟨201, .doc memory⟩, docs')) :
    getMemoriesId conn docs' (toHexString memory._id)
      = (.sent ⟨200, .doc memory⟩, docs') := by
  obtain ⟨rfl, hf, rfl⟩ := postMemories_created_store h
  simp [getMemoriesId, Memory.findById, castObjectId_toHexString,
    find?_append_fresh docs memory hf]

/-- C2 at the Paris body: the record created in an empty collection is fetched
back under its identifier. -/
theorem getMemoriesId_after_postMemories_witness :
    postMemories .connected [] (sampleId 1) parisBody
        = (.sent ⟨201, .doc parisDoc⟩, [parisDoc])
      ∧ getMemoriesId .connected [parisDoc] (toHexString parisDoc._id)
        = (.sent ⟨200, .doc parisDoc⟩, [parisDoc]) :=
  ⟨by decide,
    getMemoriesId_after_postMemories .connected [] [parisDoc] (sampleId 1) parisBody parisDoc
      (by decide)⟩

/-- C6: for every collection and every record that `POST /memories` created in
it, `DELETE /memories/:id` with the record's identifier answers 200, after
which no document of the collection has that identifier and
`GET /memories/:id` with the same identifier answers 404. -/
theorem getMemoriesId_after_deleteMemoriesId (conn : ConnState) (docs docs' : List Memory)
    (oid : ObjectId) (body : Body) (memory : Memory)
    (h : postMemories conn docs oid body = (.sent ⟨201, .doc memory⟩, docs')) :
    (deleteMemoriesId conn docs' (toHexString memory._id)).1
        = .sent ⟨200, .json [("message", "Deleted successfully")]⟩
      ∧ (∀ m ∈ (deleteMemoriesId conn docs' (toHexString memory._id)).2,
          m._id ≠ memory._id)
      ∧ getMemoriesId conn (deleteMemoriesId conn docs' (toHexString memory._id)).2
          (toHexString memory._id)
        = (.sent ⟨404, .json [("error", "Not found")]⟩,
            (deleteMemoriesId conn docs' (toHexString memory._id)).2) := by
  obtain ⟨rfl, hf, rfl⟩ := postMemories_created_store h
  have hd : deleteMemoriesId .connected (docs ++ [memory]) (toHexString memory._id)
      = (.sent ⟨200, .json [("message", "Deleted successfully")]⟩, docs) := by
    simp [deleteMemoriesId, Memory.findByIdAndDelete, castObjectId_toHexString,
      eraseP_append_fresh docs memory hf]
  rw [hd]
  refine ⟨rfl, hf, ?_⟩
  simp [getMemoriesId, Memory.findById, castObjectId_toHexString,
    find?_fresh docs memory._id hf]

/-- C6 at the Paris body: created, deleted, then not found. -/
theorem getMemoriesId_after_deleteMemoriesId_witness :
    postMemories .connected [] (sampleId 1) parisBody
        = (.sent ⟨201, .doc parisDoc⟩, [parisDoc])
      ∧ (deleteMemoriesId .connected [parisDoc] (toHexString parisDoc._id)).1
        = .sent ⟨200, .json [("message", "Deleted successfully")]⟩
      ∧ (∀ m ∈ (deleteMemoriesId .connected [parisDoc] (toHexString parisDoc._id)).2,
          m._id ≠ parisDoc._id)
      ∧ getMemoriesId .connected
          (deleteMemoriesId .connected [parisDoc] (toHexString parisDoc._id)).2
          (toHexString parisDoc._id)
        = (.sent ⟨404, .json [("error", "Not found")]⟩,
            (deleteMemoriesId .connected [parisDoc] (toHexString parisDoc._id)).2) :=
  ⟨by decide,
    getMemoriesId_after_deleteMemoriesId .connected [] [parisDoc] (sampleId 1) parisBody
      parisDoc (by decide)⟩

/-- C8: in every state of the connection and of the collection,
`GET /health` answers 200 with the text `OK`; the answer does not depend on
the collection, and the collection is left as it is. -/
theorem health_ok (conn conn' : ConnState) (docs docs' : List Memory) :
    health conn docs = (.sent ⟨200, .text "OK"⟩, docs)
      ∧ (health conn docs).1 = (health conn' docs').1 :=
  ⟨rfl, rfl⟩

/-- C9: in an empty collection, `GET /memories` right after one
`POST /memories` that created a record answers 200 with that record alone;
on the empty collection itself it answers 200 with no record. -/
theorem getMemories_after_postMemories (conn : ConnState) (docs' : List Memory)
    (oid : ObjectId) (body : Body) (memory : Memory)
    (h : postMemories conn [] oid body = (.sent ⟨201, .doc memory⟩, docs')) :
    getMemories conn docs' = (.sent ⟨200, .docs [memory]⟩, docs')
      ∧ getMemories .connected [] = (.sent ⟨200, .docs []⟩, []) := by
  obtain ⟨rfl, -, rfl⟩ := postMemories_created_store h
  exact ⟨rfl, rfl⟩

/-- C9 at the Paris body: the list after one create holds the Paris record
alone. -/
theorem getMemories_after_postMemories_witness :
    postMemories .connected [] (sampleId 1) parisBody
        = (.sent ⟨201, .doc parisDoc⟩, [parisDoc])
      ∧ getMemories .connected [parisDoc] = (.sent ⟨200, .docs [parisDoc]⟩, [parisDoc])
      ∧ getMemories .connected [] = (.sent ⟨200, .docs []⟩, []) :=
  ⟨by decide,
    getMemories_after_postMemories .connected [parisDoc] (sampleId 1) parisBody parisDoc
      (by decide)⟩

/-! ## Identifiers that are not ObjectIds -/

/-- A route parameter that is not an `ObjectId` makes `Memory.findById` reject,
and `GET /memories/:id` sends nothing. -/
theorem getMemoriesId_rejected (conn : ConnState) (docs : List Memory) (id : String)
    (hc : castObjectId id = none) :
    getMemoriesId conn docs id = (.rejected .castError, docs) := by
  simp [getMemoriesId, Memory.findById, hc]

/-- A route parameter that is not an `ObjectId` makes
`Memory.findByIdAndUpdate` reject, and `PUT /memories/:id` sends nothing. -/
theorem putMemoriesId_rejected (conn : ConnState) (docs : List Memory) (id : String)
    (body : Body) (hc : castObjectId id = none) :
    putMemoriesId conn docs id body = (.rejected .castError, docs) := by
  simp [putMemoriesId, Memory.findByIdAndUpdate, hc]

/-- A route parameter that is not an `ObjectId` makes
`Memory.findByIdAndDelete` reject, and `DELETE /memories/:id` sends nothing. -/
theorem deleteMemoriesId_rejected (conn : ConnState) (docs : List Memory) (id : String)
    (hc : castObjectId id = none) :
    deleteMemoriesId conn docs id = (.rejected .castError, docs) := by
  simp [deleteMemoriesId, Memory.findByIdAndDelete, hc]

/-- An `ObjectId` that no document has: `GET /memories/:id` answers 404 and
leaves the collection as it is. -/
theorem getMemoriesId_absent (docs : List Memory) (id : String) (oid : ObjectId)
    (hc : castObjectId id = some oid) (hf : ∀ m ∈ docs, m._id ≠ oid) :
    getMemoriesId .connected docs id
      = (.sent ⟨404, .json [("error", "Not found")]⟩, docs) := by
  simp [getMemoriesId, Memory.findById, hc, find?_fresh docs oid hf]

/-- An `ObjectId` that no document has, with a body that casts to an update
document: `PUT /memories/:id` answers 404 and leaves the collection as it
is. -/
theorem putMemoriesId_absent (docs : List Memory) (id : String) (oid : ObjectId)
    (body : Body) (u : Update) (hc : castObjectId id = some oid)
    (hb : castUpdate body = .resolved u) (hf : ∀ m ∈ docs, m._id ≠ oid) :
    putMemoriesId .connected docs id body
      = (.sent ⟨404, .json [("error", "Not found")]⟩, docs) := by
  simp [putMemoriesId, Memory.findByIdAndUpdate, hc, hb, Settled.andThen,
    updateFirst_fresh u oid docs hf]

/-- An `ObjectId`, whether a document has it or not: `DELETE /memories/:id`
answers 200 with the fixed message. -/
theorem deleteMemoriesId_sent (docs : List Memory) (id : String) (oid : ObjectId)
    (hc : castObjectId id = some oid) :
    deleteMemoriesId .connected docs id
      = (.sent ⟨200, .json [("message", "Deleted successfully")]⟩,
          docs.eraseP (fun m => m._id = oid)) := by
  simp [deleteMemoriesId, Memory.findByIdAndDelete, hc]

/-- C3 at the identifier `abc`, which no record of the collection has:
`GET /memories/abc` and `PUT /memories/abc` both end in a rejected `CastError`
and send no 404; so does `PUT` under an `ObjectId` that no record has when the
body holds an array for `location`. -/
theorem getMemoriesId_putMemoriesId_abc :
    getMemoriesId .connected [parisDoc] "abc" = (.rejected .castError, [parisDoc])
      ∧ putMemoriesId .connected [parisDoc] "abc" [("description", .str "Updated")]
        = (.rejected .castError, [parisDoc])
      ∧ putMemoriesId .connected [parisDoc] (toHexString (sampleId 2))
          [("location", .arr [])]
        = (.rejected .castError, [parisDoc]) := by
  decide

/-- C5 at the identifier `abc`: `DELETE /memories/abc` ends in a rejected
`CastError` and sends no 200, on the empty collection and on one with a
record. -/
theorem deleteMemoriesId_abc :
    deleteMemoriesId .connected [] "abc" = (.rejected .castError, [])
      ∧ deleteMemoriesId .connected [parisDoc] "abc" = (.rejected .castError, [parisDoc]) := by
  decide

/-- C7 at the identifier `not-an-id`: `GET /memories/not-an-id` ends in a
rejected `CastError`, while `GET` under an `ObjectId` that no record has is
answered 404. -/
theorem getMemoriesId_not_an_id :
    getMemoriesId .connected [parisDoc] "not-an-id" = (.rejected .castError, [parisDoc])
      ∧ getMemoriesId .connected [parisDoc] (toHexString (sampleId 2))
        = (.sent ⟨404, .json [("error", "Not found")]⟩, [parisDoc]) := by
  decide

/-! ## The index on `_id` -/

/-- A created record keeps the identifiers of a collection distinct. -/
theorem postMemories_uniqueIds (conn : ConnState) (docs : List Memory) (oid : ObjectId)
    (body : Body) (hu : UniqueIds docs) : UniqueIds (postMemories conn docs oid body).2 := by
  cases hn : newMemory oid body with
  | none => simpa [postMemories, hn] using hu
  | some d =>
    cases hs : d.save conn docs with
    | error err => simpa [postMemories, hn, hs] using hu
    | ok p =>
      obtain ⟨memory, docs'⟩ := p
      obtain ⟨-, -, hf, hm, hd⟩ := save_ok hs
      have hid : memory._id = d.doc._id := by rw [hm]
      subst hd
      simp only [postMemories, hn, hs, UniqueIds, List.map_append, List.map_cons, List.map_nil]
      refine List.Nodup.append hu (List.nodup_singleton _) ?_
      intro x hx hx'
      obtain ⟨m, hmem, rfl⟩ := List.mem_map.mp hx
      rw [List.mem_singleton, hid] at hx'
      exact hf m hmem hx'

theorem updateFirst_ids (oid : ObjectId) (u : Update) (docs : List Memory)
    (found : Option Memory) (docs' : List Memory)
    (h : updateFirst oid u docs = .ok (found, docs')) :
    docs'.map Memory._id = docs.map Memory._id := by
  induction docs generalizing found docs' with
  | nil =>
    simp only [updateFirst, Except.ok.injEq, Prod.mk.injEq] at h
    rw [← h.2]
  | cons a as ih =>
    unfold updateFirst at h
    by_cases ha : a._id = oid
    · rw [if_pos ha] at h
      cases hup : a.update u with
      | error err => simp [hup] at h
      | ok updated =>
        simp only [hup, Except.ok.injEq, Prod.mk.injEq] at h
        rw [← h.2]
        simp [update_id hup]
    · rw [if_neg ha] at h
      cases hrest : updateFirst oid u as with
      | error err => simp [hrest] at h
      | ok p =>
        obtain ⟨r, rest⟩ := p
        simp only [hrest, Except.ok.injEq, Prod.mk.injEq] at h
        rw [← h.2]
        simp [ih r rest hrest]

/-- An update keeps the identifiers of a collection as they are. -/
theorem putMemoriesId_uniqueIds (conn : ConnState) (docs : List Memory) (id : String)
    (body : Body) (hu : UniqueIds docs) : UniqueIds (putMemoriesId conn docs id body).2 := by
  unfold putMemoriesId
  cases hr : Memory.findByIdAndUpdate conn docs id body with
  | rejected err => exact hu
  | outside => exact hu
  | resolved p =>
    obtain ⟨r, docs'⟩ := p
    have hp : docs'.map Memory._id = docs.map Memory._id := by
      unfold Memory.findByIdAndUpdate at hr
      cases hc : castObjectId id with
      | none => simp [hc] at hr
      | some oid =>
        simp only [hc] at hr
        cases hcu : castUpdate body with
        | rejected err => simp [hcu, Settled.andThen] at hr
        | outside => simp [hcu, Settled.andThen] at hr
        | resolved u =>
          simp only [hcu, Settled.andThen] at hr
          split_ifs at hr
          cases hf : updateFirst oid u docs with
          | error err => simp [hf] at hr
          | ok q =>
            obtain ⟨found, rest⟩ := q
            simp only [hf, Settled.resolved.injEq, Prod.mk.injEq] at hr
            rw [← hr.2]
            exact updateFirst_ids oid u docs found rest hf
    cases r <;> simpa [UniqueIds] using hp ▸ hu

/-- A delete keeps the identifiers of a collection distinct. -/
theorem deleteMemoriesId_uniqueIds (conn : ConnState) (docs : List Memory) (id : String)
    (hu : UniqueIds docs) : UniqueIds (deleteMemoriesId conn docs id).2 := by
  unfold deleteMemoriesId
  cases hr : Memory.findByIdAndDelete conn docs id with
  | error err => exact hu
  | ok p =>
    unfold Memory.findByIdAndDelete at hr
    split at hr
    · cases hr
    · split_ifs at hr
      cases hr
      exact List.Nodup.sublist ((List.eraseP_sublist docs).map Memory._id) hu

/-! ## Bodies that are not interpreted -/

/-- The bodies that end in `Outcome.outside`, one of each kind. -/
theorem outside_bodies :
    postMemories .connected [] (sampleId 1) [("_id", JVal.null)] = (.outside, [])
    ∧ postMemories .connected [] (sampleId 1) [("_id", JVal.arr [])] = (.outside, [])
    ∧ postMemories .connected [] (sampleId 1) [("id", JVal.str "x")] = (.outside, [])
    ∧ putMemoriesId .connected [parisDoc] (toHexString parisDoc._id)
        [("$inc", JVal.obj [("__v", JVal.num "1")])] = (.outside, [parisDoc])
    ∧ putMemoriesId .connected [parisDoc] (toHexString parisDoc._id)
        [("$set", JVal.arr [])] = (.outside, [parisDoc])
    ∧ putMemoriesId .connected [parisDoc] (toHexString parisDoc._id)
        [("_id", JVal.obj [])] = (.outside, [parisDoc])
    ∧ putMemoriesId .connected [parisDoc] (toHexString parisDoc._id)
        [("__v", JVal.str "1e3")] = (.outside, [parisDoc]) := by
  decide

end TravelMemory
